import Mathlib

/-!
Shallow embedding of the computational core of `src/app.js` (Patristics Viewer,
a static SPA browsing patristic citations of scripture), together with proofs
of the specified properties.

Conventions of the embedding:
* JS strings are modelled as `String` / `List Char`; JS numbers used as counts
  or ids are `Nat`, years are `Int`.
* `null`/`undefined` fields are modelled with `Option`.
* A JS `Map`/`Set` is modelled as a lookup function, association list or
  `Finset` as appropriate.
* The floating-point ratio in `heatLevel` is modelled over `ℚ`; callers
  guarantee `max > 0` (spec §4.2), so the `ℚ` division agrees with the JS
  computation on meaningful inputs.
-/

namespace PatristicsViewer

/-! ### Character classes (JS regex semantics, no `u` flag) -/

/-- The JS `\s` whitespace class (WhiteSpace ∪ LineTerminator). -/
def isJsWs (c : Char) : Bool :=
  c == ' ' || c == '\t' || c == '\n' || c == '\r' ||
  c == Char.ofNat 0x0b || c == Char.ofNat 0x0c ||
  c == Char.ofNat 0xa0 || c == Char.ofNat 0x1680 ||
  (0x2000 ≤ c.toNat && c.toNat ≤ 0x200a) ||
  c == Char.ofNat 0x2028 || c == Char.ofNat 0x2029 ||
  c == Char.ofNat 0x202f || c == Char.ofNat 0x205f ||
  c == Char.ofNat 0x3000 || c == Char.ofNat 0xfeff

/-- ASCII decimal digit (the JS `\d` class). -/
def isDigitChar (c : Char) : Bool :=
  '0' ≤ c && c ≤ '9'

/-- The JS `\w` word-character class `[A-Za-z0-9_]`, used for `\b`. -/
def isWordChar (c : Char) : Bool :=
  ('a' ≤ c && c ≤ 'z') || ('A' ≤ c && c ≤ 'Z') || isDigitChar c || c == '_'

/-- ASCII lower-casing, the canonicalisation relevant to the `i` regex flag
for the digit/Roman-numeral patterns built by `highlightPassage`. -/
def toLowerAscii (c : Char) : Char :=
  if 'A' ≤ c && c ≤ 'Z' then Char.ofNat (c.toNat + 32) else c

/-- JS `String.prototype.trim` over a character list. -/
def trimJs (l : List Char) : List Char :=
  ((l.dropWhile isJsWs).reverse.dropWhile isJsWs).reverse

/-! ### Data model (from `index.json` / chapter payloads) -/

/-- One chapter entry of a book in the index: `{ch, count, by_cat}`.
`by_cat` is absent (`none`) in the legacy JSON format. -/
structure ChapterEntry where
  ch : Nat
  count : Nat
  by_cat : Option (List (String × Nat))
deriving DecidableEq

/-- A work (manuscript) entry from the index. -/
structure Work where
  id : Nat
  author : String
  title : String
  year : Option Int
  category : Option String
  ref_count : Option Nat
  ccel_url : Option String
deriving DecidableEq

/-- `work.category || "Other"` — the category shown/filtered for a work
(missing or empty category degrades to `"Other"`). -/
def workCategory (w : Work) : String :=
  match w.category with
  | none => "Other"
  | some c => if c = "" then "Other" else c

/-- A citation record of a chapter payload: `{w, v, p}` (work id, verse
locator, passage id). -/
structure ChapterRef where
  w : Nat
  v : Option String
  p : Nat
deriving DecidableEq

/-- A citation record of a manuscript payload (per-work citation list). -/
structure WorkRef where
  book : String
  book_slug : String
  chapter : Nat
  v : Option String
  p : Nat
deriving DecidableEq

/-- A manuscript payload: `{title, author, year, ccel_url, refs}`. -/
structure WorkData where
  title : String
  author : String
  year : Option Int
  ccel_url : Option String
  refs : List WorkRef
deriving DecidableEq

/-! ### `heatLevel` (js: src/app.js lines 76–83) -/

/-- `heatLevel(count, max)`: discrete 0–4 heat intensity. The JS float ratio
`count / max` is modelled over `ℚ`. -/
def heatLevel (count max : Nat) : Nat :=
  if count = 0 then 0
  else
    let ratio : ℚ := (count : ℚ) / (max : ℚ)
    if ratio < 0.15 then 1
    else if ratio < 0.40 then 2
    else if ratio < 0.70 then 3
    else 4

/-! ### `filteredCount` (js: src/app.js lines 86–93) -/

/-- `filteredCount(ch, cats)`: ref count of a chapter restricted to the
checked categories; legacy chapters without `by_cat` fall back to `count`. -/
def filteredCount (c : ChapterEntry) (cats : Finset String) : Nat :=
  match c.by_cat with
  | none => c.count
  | some l => l.foldl (fun total p => if p.1 ∈ cats then total + p.2 else total) 0

/-! ### `primaryVerseKey` and verse grouping (js: src/app.js 257–261, 300–326) -/

/-- `primaryVerseKey(v)`: `null → "whole"`; a locator matching `/^(\d+)/`
maps to its leading digit run; anything else passes through unchanged. -/
def primaryVerseKey (v : Option String) : String :=
  match v with
  | none => "whole"
  | some s =>
    let m := s.data.takeWhile isDigitChar
    if m.isEmpty then s else String.mk m

/-- The refs of a chapter that survive the grouping filter in
`renderVerseTable`: the work id must resolve and the work's category must be
in the active set. -/
def keptRefs (worksById : Nat → Option Work) (cats : Finset String)
    (refs : List ChapterRef) : List ChapterRef :=
  refs.filter fun r =>
    match worksById r.w with
    | none => false
    | some w => decide (workCategory w ∈ cats)

/-- The group (`groups.get(key)`) of surviving refs assigned to one verse key,
in their original order. -/
def groupOf (worksById : Nat → Option Work) (cats : Finset String)
    (refs : List ChapterRef) (key : String) : List ChapterRef :=
  (keptRefs worksById cats refs).filter fun r => primaryVerseKey r.v == key

/-- The group keys in first-insertion order (JS `Map` iteration order). -/
def groupKeysInOrder (worksById : Nat → Option Work) (cats : Finset String)
    (refs : List ChapterRef) : List String :=
  (keptRefs worksById cats refs).foldl
    (fun acc r =>
      let k := primaryVerseKey r.v
      if k ∈ acc then acc else acc ++ [k])
    []

/-- Numeric value of the leading digit run of a key — the value
`parseInt(key, 10)` produces on the digit-leading keys the table contains. -/
def verseKeyNum (s : String) : Nat :=
  (s.data.takeWhile isDigitChar).foldl (fun a c => 10 * a + (c.toNat - 48)) 0

/-- Comparator used to sort non-"whole" verse keys:
`(a, b) => parseInt(a, 10) - parseInt(b, 10)` ordering. -/
def verseKeyLE (a b : String) : Prop :=
  verseKeyNum a ≤ verseKeyNum b

instance : DecidableRel verseKeyLE :=
  fun a b => inferInstanceAs (Decidable (verseKeyNum a ≤ verseKeyNum b))

instance : IsTotal String verseKeyLE :=
  ⟨fun a b => Nat.le_total (verseKeyNum a) (verseKeyNum b)⟩

instance : IsTrans String verseKeyLE :=
  ⟨fun _ _ _ h₁ h₂ => Nat.le_trans h₁ h₂⟩

/-- `orderedKeys`: the `"whole"` row first (when present), then the remaining
keys sorted numerically ascending (stable, as the JS sort is). -/
def orderedKeys (ks : List String) : List String :=
  (if "whole" ∈ ks then ["whole"] else []) ++
    List.insertionSort verseKeyLE (ks.filter fun k => !(k == "whole"))

/-! ### `toRoman` (js: src/app.js 710–716) -/

/-- The subtractive-pair value/symbol table of `toRoman`. -/
def romanVals : List (Nat × List Char) :=
  [(100, ['c']), (90, ['x', 'c']), (50, ['l']), (40, ['x', 'l']),
   (10, ['x']), (9, ['i', 'x']), (5, ['v']), (4, ['i', 'v']), (1, ['i'])]

/-- The inner `while (n >= vals[i])` loop of `toRoman`, with structural fuel:
each iteration lowers `n` by `v ≥ 1`, so fuel `n` never runs out. -/
def romanEmitGo (v : Nat) (sym : List Char) : Nat → Nat → List Char × Nat
  | 0, n => ([], n)
  | fuel + 1, n =>
    if 0 < v ∧ v ≤ n then
      let p := romanEmitGo v sym fuel (n - v)
      (sym ++ p.1, p.2)
    else ([], n)

/-- The inner `while (n >= vals[i])` loop of `toRoman`: emit `sym` while it
still fits, returning the emitted symbols and the remainder of `n`. -/
def romanEmit (v : Nat) (sym : List Char) (n : Nat) : List Char × Nat :=
  romanEmitGo v sym n n

/-- The outer `for` loop of `toRoman` over the value table. -/
def toRomanGo : List (Nat × List Char) → Nat → List Char
  | [], _ => []
  | (v, sym) :: rest, n =>
    let p := romanEmit v sym n
    p.1 ++ toRomanGo rest p.2

/-- `toRoman(n)`: lowercase Roman numeral via greedy subtractive pairs. -/
def toRoman (n : Nat) : List Char :=
  toRomanGo romanVals n

/-! ### The citation regex of `highlightPassage`

The pattern is `(?:CH|ROMAN)\s*[.:\s]+VERSE\b` with the `i` flag, where `CH`
is the chapter in decimal, `ROMAN` the chapter as a lowercase Roman numeral
and `VERSE` the leading digit run of the verse locator.  Because the
separator class `[.:\s]` and the digit class are disjoint, the greedy
quantifiers are deterministic: a match at a position is the chapter
alternative, then the maximal nonempty separator run, then the verse digits,
then a word boundary. -/

/-- A separator character of the `\s*[.:\s]+` part. -/
def isSepChar (c : Char) : Bool :=
  isJsWs c || c == '.' || c == ':'

/-- Case-insensitive prefix match of a (lowercase) pattern. -/
def matchCI : List Char → List Char → Bool
  | [], _ => true
  | _ :: _, [] => false
  | p :: ps, c :: cs => (toLowerAscii c == p) && matchCI ps cs

/-- Try one chapter alternative `pat` at the head of `t`: on success return
the total matched length (chapter + separators + verse digits). -/
def matchAltLen (pat verse : List Char) (t : List Char) : Option Nat :=
  if matchCI pat t then
    let rest := t.drop pat.length
    let sep := rest.takeWhile isSepChar
    if sep.length = 0 then none
    else
      let rest2 := rest.drop sep.length
      if verse.isPrefixOf rest2 then
        match rest2.drop verse.length with
        | [] => some (pat.length + sep.length + verse.length)
        | c :: _ =>
          if isWordChar c then none
          else some (pat.length + sep.length + verse.length)
      else none
  else none

/-- The full alternation at the head of `t`: decimal chapter first, then the
Roman-numeral alternative (JS alternation order). -/
def matchAt (chA roman verse : List Char) (t : List Char) : Option Nat :=
  match matchAltLen chA verse t with
  | some len => some len
  | none => matchAltLen roman verse t

/-- `re.exec(text)`: the leftmost match, as `(index, length)`.  (The pattern
can never match the empty string, since the separator run is nonempty.) -/
def findMatch (chA roman verse : List Char) : Nat → List Char → Option (Nat × Nat)
  | _, [] => none
  | i, c :: rest =>
    match matchAt chA roman verse (c :: rest) with
    | some len => some (i, len)
    | none => findMatch chA roman verse (i + 1) rest

/-! ### Sentence-boundary scanning of `highlightPassage` (js: 736–762) -/

/-- The `/^\s+[A-Z"(\[]/` test: at least one whitespace character followed by
an uppercase letter or an opening quote/paren/bracket. -/
def punctBreakTest (l : List Char) : Bool :=
  let w := l.takeWhile isJsWs
  !w.isEmpty &&
    (match l.drop w.length with
     | [] => false
     | c :: _ => ('A' ≤ c && c ≤ 'Z') || c == '"' || c == '(' || c == '[')

/-- Backward scan for the sentence start (js: 739–747): from the match offset,
step left until a paragraph break (two consecutive newlines) or a `.`/`!`/`?`
followed by whitespace and an uppercase letter or opening quote/bracket. -/
def backScan (t : List Char) : Nat → Nat
  | 0 => 0
  | s + 1 =>
    if t.getD s ' ' = '\n' ∧ (s = 0 ∨ t.getD (s - 1) ' ' = '\n') then s + 1
    else if (t.getD s ' ' = '.' ∨ t.getD s ' ' = '!' ∨ t.getD s ' ' = '?') ∧
        punctBreakTest (t.drop (s + 1)) = true then s + 1
    else backScan t s

/-- The `while (s < m && text[s] === ' ') s++` loop (js: 749), with structural
fuel: `s` approaches the bound `m`, so fuel `m - s` never runs out. -/
def skipSpacesGo (t : List Char) (m : Nat) : Nat → Nat → Nat
  | 0, s => s
  | fuel + 1, s =>
    if s < m ∧ t.getD s ' ' = ' ' then skipSpacesGo t m fuel (s + 1) else s

/-- The trim of leading plain spaces after the backward scan (js: 749),
bounded by the match offset `m`. -/
def skipSpacesTo (t : List Char) (m s : Nat) : Nat :=
  skipSpacesGo t m (m - s) s

/-- A trailing closing quote/paren character, `/^['")\]]*/`. -/
def isCloseTrail (c : Char) : Bool :=
  c == Char.ofNat 39 || c == '"' || c == ')' || c == ']'

/-- Forward scan for the sentence end (js: 753–762): step right until a double
newline (consumed) or a `.`/`!`/`?` that — after skipping closing quotes and
parens — is followed by end-of-text, whitespace plus an uppercase letter or
opening quote/bracket, or only trailing whitespace. -/
def fwdScanGo (t : List Char) : Nat → Nat → Nat
  | 0, e => e
  | fuel + 1, e =>
    if e < t.length then
      if t.getD e ' ' = '\n' ∧ e + 1 < t.length ∧ t.getD (e + 1) ' ' = '\n' then e + 2
      else if t.getD e ' ' = '.' ∨ t.getD e ' ' = '!' ∨ t.getD e ' ' = '?' then
        let rest := (t.drop (e + 1)).dropWhile isCloseTrail
        if rest.isEmpty ∨ punctBreakTest rest = true ∨ rest.all isJsWs then e + 1
        else fwdScanGo t fuel (e + 1)
      else fwdScanGo t fuel (e + 1)
    else e

/-- Entry point of the forward scan, with structural fuel: the loop only
continues while `e < t.length` and `e` grows, so fuel `t.length - e` never
runs out. -/
def fwdScan (t : List Char) (e : Nat) : Nat :=
  fwdScanGo t (t.length - e) e

/-! ### `highlightPassage` (js: src/app.js 720–767)

The JS function returns HTML `esc(pre) + "<mark>" + esc(mid) + "</mark>" +
esc(suf)`; the embedding returns the underlying character triple
`(pre, mid, suf)` — `mid` is the highlighted sentence.  The no-highlight
paths return `(text, [], [])`. -/

/-- The three slices `text.slice(0, s)`, `text.slice(s, e)`, `text.slice(e)`. -/
def sliceTriple (t : List Char) (s e : Nat) : List Char × List Char × List Char :=
  (t.take s, (t.drop s).take (e - s), (t.drop s).drop (e - s))

/-- `highlightPassage(text, chapter, verseKey)` as a triple of slices. -/
def highlightTriple (text : List Char) (chapter : Nat) (verseKey : Option String) :
    List Char × List Char × List Char :=
  if text.isEmpty then ([], [], [])
  else
    match verseKey with
    | none => (text, [], [])
    | some vk =>
      if vk = "" ∨ vk = "whole" then (text, [], [])
      else
        let verseStart := trimJs (vk.data.takeWhile fun c => !(c == '-' || c == ','))
        if verseStart.isEmpty ∨ ¬ verseStart.all isDigitChar then (text, [], [])
        else
          match findMatch (Nat.toDigits 10 chapter) (toRoman chapter) verseStart 0 text with
          | none => (text, [], [])
          | some (m, len) =>
            let s := skipSpacesTo text m (backScan text m)
            let e := fwdScan text (m + len)
            sliceTriple text s e

/-- The stop condition of the backward scan: position `s` is directly after a
paragraph break, or directly after sentence-ending punctuation followed by
whitespace and an uppercase letter or opening quote/bracket. -/
def isSentenceStop (t : List Char) (s : Nat) : Prop :=
  0 < s ∧
    ((t.getD (s - 1) ' ' = '\n' ∧ (s = 1 ∨ t.getD (s - 2) ' ' = '\n')) ∨
     ((t.getD (s - 1) ' ' = '.' ∨ t.getD (s - 1) ' ' = '!' ∨ t.getD (s - 1) ' ' = '?') ∧
      punctBreakTest (t.drop s) = true))

/-! ### Era bucketing (js: src/app.js 930–1013 and 1078–1198) -/

/-- `BOOK_GROUP_MAP`: every slug of the Protestant canon mapped to a display
group (js: 1037–1057). -/
def BOOK_GROUP_MAP : List (String × String) :=
  [("genesis", "Pentateuch"), ("exodus", "Pentateuch"), ("leviticus", "Pentateuch"),
   ("numbers", "Pentateuch"), ("deuteronomy", "Pentateuch"),
   ("joshua", "Historical"), ("judges", "Historical"), ("ruth", "Historical"),
   ("1-samuel", "Historical"), ("2-samuel", "Historical"), ("1-kings", "Historical"),
   ("2-kings", "Historical"), ("1-chronicles", "Historical"), ("2-chronicles", "Historical"),
   ("ezra", "Historical"), ("nehemiah", "Historical"), ("esther", "Historical"),
   ("job", "Poetic"), ("psalms", "Poetic"), ("proverbs", "Poetic"),
   ("ecclesiastes", "Poetic"), ("song-of-solomon", "Poetic"),
   ("isaiah", "Maj. Prophets"), ("jeremiah", "Maj. Prophets"),
   ("lamentations", "Maj. Prophets"), ("ezekiel", "Maj. Prophets"),
   ("daniel", "Maj. Prophets"),
   ("hosea", "Min. Prophets"), ("joel", "Min. Prophets"), ("amos", "Min. Prophets"),
   ("obadiah", "Min. Prophets"), ("jonah", "Min. Prophets"), ("micah", "Min. Prophets"),
   ("nahum", "Min. Prophets"), ("habakkuk", "Min. Prophets"),
   ("zephaniah", "Min. Prophets"), ("haggai", "Min. Prophets"),
   ("zechariah", "Min. Prophets"), ("malachi", "Min. Prophets"),
   ("matthew", "Gospels"), ("mark", "Gospels"), ("luke", "Gospels"), ("john", "Gospels"),
   ("acts", "Acts & Epistles"), ("romans", "Acts & Epistles"),
   ("1-corinthians", "Acts & Epistles"), ("2-corinthians", "Acts & Epistles"),
   ("galatians", "Acts & Epistles"), ("ephesians", "Acts & Epistles"),
   ("philippians", "Acts & Epistles"), ("colossians", "Acts & Epistles"),
   ("1-thessalonians", "Acts & Epistles"), ("2-thessalonians", "Acts & Epistles"),
   ("1-timothy", "Acts & Epistles"), ("2-timothy", "Acts & Epistles"),
   ("titus", "Acts & Epistles"), ("philemon", "Acts & Epistles"),
   ("hebrews", "Acts & Epistles"), ("james", "Acts & Epistles"),
   ("1-peter", "Acts & Epistles"), ("2-peter", "Acts & Epistles"),
   ("1-john", "Acts & Epistles"), ("2-john", "Acts & Epistles"),
   ("3-john", "Acts & Epistles"), ("jude", "Acts & Epistles"),
   ("revelation", "Revelation")]

/-- `BOOK_GROUP_MAP.get(slug) ?? 'Deuterocanon'` (js: 1106). -/
def bookGroup (slug : String) : String :=
  ((BOOK_GROUP_MAP.find? fun p => p.1 == slug).map Prod.snd).getD "Deuterocanon"

/-- `BOOK_GROUP_ORDER`: canonical display order of the sections, with the
Deuterocanon between the Testaments (js: 1060–1064). -/
def BOOK_GROUP_ORDER : List String :=
  ["Pentateuch", "Historical", "Poetic", "Maj. Prophets", "Min. Prophets",
   "Deuterocanon",
   "Gospels", "Acts & Epistles", "Revelation"]

/-- Per-work section counts: how many of the work's refs fall in group `g`
(the `groupCounts` map built in `renderBibleRefsByDate`, js: 1104–1108). -/
def groupCount (refs : List WorkRef) (g : String) : Nat :=
  (refs.filter fun r => bookGroup r.book_slug == g).length

/-- `index.works.filter(w => w.year != null && cats.has(w.category || 'Other'))`
— the dated works of the active categories (js: 935–937 and 1081–1082). -/
def datedWorks (works : List Work) (cats : Finset String) : List Work :=
  works.filter fun w => w.year.isSome && decide (workCategory w ∈ cats)

/-- `index.works.filter(w => w.year == null && cats.has(w.category || 'Other'))`
— the undated works of the active categories, reported as a count
(js: 938 and 1007–1012). -/
def undatedWorks (works : List Work) (cats : Finset String) : List Work :=
  works.filter fun w => w.year.isNone && decide (workCategory w ∈ cats)

/-- The `noYear.length` figure shown by the timeline (js: 1010). -/
def undatedCount (works : List Work) (cats : Finset String) : Nat :=
  (undatedWorks works cats).length

/-- The year of a dated work (`d.work.year`; only applied to works that
passed the `year != null` filter). -/
def yearOf (w : Work) : Int :=
  w.year.getD 0

/-- Bucket width from the year span of the dated, active-category works
(js: 1131). -/
def eraBucketWidth (span : Int) : Nat :=
  if span < 200 then 25
  else if span < 500 then 50
  else if span < 1000 then 100
  else if span < 2000 then 200
  else 500

/-- `yearSpan = maxYear - minYear` over the dated, active-category works
(js: 1126–1128). -/
def spanOf (works : List Work) (cats : Finset String) : Int :=
  let ys := (datedWorks works cats).map yearOf
  (ys.max?.getD 0) - (ys.min?.getD 0)

/-- The `BUCKET` constant chosen by `renderBibleRefsByDate`. -/
def vizBucketWidth (works : List Work) (cats : Finset String) : Nat :=
  eraBucketWidth (spanOf works cats)

/-- The bucket start years visited by the loop
`for (let b = Math.floor(minYear/BUCKET)*BUCKET; b <= maxYear; b += BUCKET)`
(js: 1140–1142). -/
def bucketStarts (minY maxY : Int) (B : Nat) : List Int :=
  (List.range ((maxY - (minY.fdiv B) * B).toNat / B + 1)).map
    fun i : Nat => (minY.fdiv B) * B + (B : Int) * (i : Int)

/-- `wInBucket`: the dated works (with their ref lists) whose year falls in
`[b, b + BUCKET)` (js: 1143). -/
def worksInBucket (ws : List (Work × List WorkRef)) (b : Int) (B : Nat) :
    List (Work × List WorkRef) :=
  ws.filter fun p => decide (b ≤ yearOf p.1 ∧ yearOf p.1 < b + (B : Int))

/-- The bucket starts that survive the `if (!wInBucket.length) continue`
check — the buckets actually pushed (js: 1144–1153). -/
def nonemptyBucketStarts (ws : List (Work × List WorkRef)) (minY maxY : Int)
    (B : Nat) : List Int :=
  (bucketStarts minY maxY B).filter fun b => !(worksInBucket ws b B).isEmpty

/-- A bucket's total for one section (`bucket.groupTotals.get(g)`,
js: 1146–1152). -/
def bucketGroupTotal (ws : List (Work × List WorkRef)) (b : Int) (B : Nat)
    (g : String) : Nat :=
  ((worksInBucket ws b B).map fun p => groupCount p.2 g).sum

/-- `activeGroups`: the canonical sections that occur in some work's ref list,
kept in canonical order (js: 1117–1119). -/
def activeGroups (ws : List (Work × List WorkRef)) : List String :=
  BOOK_GROUP_ORDER.filter fun g => ws.any fun p => decide (0 < groupCount p.2 g)

/-- The sections emitted (stacked) for one bucket, in the order the segment
loop visits them (js: 1188–1198): `activeGroups` order, skipping
zero-count sections. -/
def emittedSections (ws : List (Work × List WorkRef)) (b : Int) (B : Nat) :
    List String :=
  (activeGroups ws).filter fun g => decide (0 < bucketGroupTotal ws b B g)

/-! ### Per-work fetch, cache and failure handling (js: 620–637, 1020–1033) -/

/-- The shared `workRefsCache` (`Map` keyed by work id), as an association
list: earlier entries shadow later ones, like `Map.set` on a fresh key. -/
def RefsCache : Type :=
  List (Nat × List WorkRef)

/-- `workRefsCache.get`/`has`. -/
def cacheLookup (cache : RefsCache) (k : Nat) : Option (List WorkRef) :=
  ((cache : List (Nat × List WorkRef)).find? fun p => p.1 == k).map Prod.snd

/-- `fetchWorkRefs(workId)` (js: 1023–1033): return the cached ref list when
present; otherwise fetch, caching `data.refs` on success and `[]` on failure
(the failure is swallowed and scoped to this key). The external fetch is an
opaque `Except`-valued dependency keyed by id. -/
def fetchWorkRefs (fetchResult : Nat → Except String WorkData)
    (cache : RefsCache) (workId : Nat) : RefsCache × List WorkRef :=
  match cacheLookup cache workId with
  | some refs => (cache, refs)
  | none =>
    match fetchResult workId with
    | Except.ok data => ((workId, data.refs) :: cache, data.refs)
    | Except.error _ => ((workId, []) :: cache, [])

/-- The observable outcome of `loadWork` for one work id: either the
localized "Could not load work data." message in the work panel, or the
rendered work. -/
inductive WorkView
  | couldNotLoad
  | rendered (d : WorkData)
deriving DecidableEq

/-- `loadWork(workId)` (js: 620–637): a fetch failure is caught and renders
the localized "could not load" state for that work instead of aborting. -/
def loadWork (fetchResult : Nat → Except String WorkData) (workId : Nat) : WorkView :=
  match fetchResult workId with
  | Except.error _ => WorkView.couldNotLoad
  | Except.ok d => WorkView.rendered d

/-! ### Generation counter and stale-result suppression (js: 783–796, 1018,
1101–1115)

`renderVizTab` clears the viz pane and snapshots `++_vizVersion`; the async
`renderBibleRefsByDate` compares the snapshot against the current
`_vizVersion` when its data arrives and discards the result on mismatch.
The interleaving is modelled as a sequence of events over the module state. -/

/-- The module-level state: the `_vizVersion` counter and the generation
whose async chart output is currently displayed (if any). -/
structure VizState where
  vizVersion : Nat
  vizOutput : Option Nat
deriving DecidableEq

/-- `renderVizTab`'s synchronous prefix: clear the pane and snapshot
`version = ++_vizVersion`. Returns the new state and the snapshot handed to
the async render. -/
def renderVizTabStep (st : VizState) : VizState × Nat :=
  (⟨st.vizVersion + 1, none⟩, st.vizVersion + 1)

/-- The async completion of `renderBibleRefsByDate` tagged `version`:
`if (_vizVersion !== version) return;` else render. -/
def asyncComplete (st : VizState) (version : Nat) : VizState :=
  if st.vizVersion ≠ version then st
  else ⟨st.vizVersion, some version⟩

/-- An observable event: a filter/selection change triggering `renderVizTab`,
or the arrival of an async result carrying its generation snapshot. -/
inductive VizEvent
  | render
  | complete (version : Nat)

/-- One step of the interleaving. -/
def vizStep (st : VizState) : VizEvent → VizState
  | VizEvent.render => (renderVizTabStep st).1
  | VizEvent.complete v => asyncComplete st v

/-- A whole interleaving. -/
def vizRun (st : VizState) (evs : List VizEvent) : VizState :=
  evs.foldl vizStep st

/-! ## Helper lemmas -/

theorem sliceTriple_concat (t : List Char) (s e : Nat) :
    (sliceTriple t s e).1 ++ ((sliceTriple t s e).2.1 ++ (sliceTriple t s e).2.2) = t := by
  simp only [sliceTriple, List.take_append_drop]

/-! ## Claim theorems -/

/-- Claim C1: for every passage text, chapter and verse locator,
`highlightPassage` splits the text into a prefix/highlighted/suffix triple
whose concatenation is the passage text; and a `null` or `"whole"` locator,
or an empty text, yields an empty highlight with the full text as the
prefix. -/
theorem highlight_concat_spec :
    (∀ (t : List Char) (chapter : Nat) (v : Option String),
        (highlightTriple t chapter v).1 ++
          ((highlightTriple t chapter v).2.1 ++ (highlightTriple t chapter v).2.2) = t) ∧
    (∀ (t : List Char) (chapter : Nat), highlightTriple t chapter none = (t, [], [])) ∧
    (∀ (t : List Char) (chapter : Nat),
        highlightTriple t chapter (some "whole") = (t, [], [])) ∧
    (∀ (chapter : Nat) (v : Option String), highlightTriple [] chapter v = ([], [], [])) := by
  have hmain : ∀ (t : List Char) (chapter : Nat) (v : Option String),
      (highlightTriple t chapter v).1 ++
        ((highlightTriple t chapter v).2.1 ++ (highlightTriple t chapter v).2.2) = t := by
    intro t chapter v
    unfold highlightTriple
    split
    · next h => simp_all [List.isEmpty_iff]
    · split
      · simp
      · split
        · simp
        · dsimp only
          split
          · simp
          · split
            · simp
            · exact sliceTriple_concat ..
  refine ⟨hmain, ?_, ?_, ?_⟩
  · intro t chapter
    unfold highlightTriple
    split
    · next h => simp_all [List.isEmpty_iff]
    · rfl
  · intro t chapter
    unfold highlightTriple
    split
    · next h => simp_all [List.isEmpty_iff]
    · rfl
  · intro chapter v
    rfl

/-- Claim C4: after the chapter:verse pattern matches, the backward scan for
the sentence start stops only at the text start, at a paragraph break (two
consecutive newlines), or at a `.`/`!`/`?` followed by whitespace and then an
uppercase letter or opening quote/bracket; consequently on
`highlight("... Rom. viii. 13 says ...", 8, "13")` the sentence start is not
placed at the abbreviation period of "Rom.": the highlight starts at "Rom.",
with only `"... "` as the prefix. -/
theorem sentence_start_scan_spec :
    (∀ (t : List Char) (m : Nat),
        backScan t m = 0 ∨ isSentenceStop t (backScan t m)) ∧
    highlightTriple ("... Rom. viii. 13 says ...".data) 8 (some "13") =
      ("... ".data, "Rom. viii. 13 says ...".data, []) := by
  constructor
  · intro t m
    induction m with
    | zero => exact Or.inl rfl
    | succ s ih =>
      rw [backScan]
      split
      · next h =>
        refine Or.inr ⟨Nat.succ_pos s, Or.inl ⟨h.1, ?_⟩⟩
        rcases h.2 with h0 | h1
        · exact Or.inl (by omega)
        · exact Or.inr h1
      · split
        · next h => exact Or.inr ⟨Nat.succ_pos s, Or.inr h⟩
        · exact ih
  · decide

theorem foldl_filteredCount (cats : Finset String) (l : List (String × Nat)) (a : Nat) :
    l.foldl (fun total p => if p.1 ∈ cats then total + p.2 else total) a
      = a + ((l.filter fun p => decide (p.1 ∈ cats)).map Prod.snd).sum := by
  induction l generalizing a with
  | nil => simp
  | cons p l ih => by_cases hp : p.1 ∈ cats <;> simp [hp, ih] <;> omega

/-- Claim C3: on a chapter carrying a per-category mapping, `filteredCount`
sums the per-category counts over the categories of the active set (absent
categories contribute nothing); with every listed category active it returns
the sum `T` of all per-category counts, and with no category active it
returns 0. A chapter without a per-category breakdown falls back to its
unconditional total. -/
theorem filteredCount_spec :
    (∀ (c : ChapterEntry) (l : List (String × Nat)) (cats : Finset String),
        c.by_cat = some l →
        filteredCount c cats = ((l.filter fun p => decide (p.1 ∈ cats)).map Prod.snd).sum) ∧
    (∀ (c : ChapterEntry) (l : List (String × Nat)) (cats : Finset String),
        c.by_cat = some l → (∀ p ∈ l, p.1 ∈ cats) →
        filteredCount c cats = (l.map Prod.snd).sum) ∧
    (∀ (c : ChapterEntry) (l : List (String × Nat)),
        c.by_cat = some l → filteredCount c (∅ : Finset String) = 0) ∧
    (∀ (c : ChapterEntry) (cats : Finset String),
        c.by_cat = none → filteredCount c cats = c.count) := by
  have h1 : ∀ (c : ChapterEntry) (l : List (String × Nat)) (cats : Finset String),
      c.by_cat = some l →
      filteredCount c cats = ((l.filter fun p => decide (p.1 ∈ cats)).map Prod.snd).sum := by
    intro c l cats hc
    unfold filteredCount
    rw [hc]
    simpa using foldl_filteredCount cats l 0
  refine ⟨h1, ?_, ?_, ?_⟩
  · intro c l cats hc hall
    have hfl : l.filter (fun p => decide (p.1 ∈ cats)) = l :=
      List.filter_eq_self.mpr fun p hp => decide_eq_true (hall p hp)
    rw [h1 c l cats hc, hfl]
  · intro c l hc
    rw [h1 c l ∅ hc]
    simp
  · intro c cats hc
    unfold filteredCount
    rw [hc]

/-- Witness for C3 on a concrete chapter: both categories active gives the
total 5, the empty set gives 0, and a legacy chapter falls back to its
count. -/
theorem filteredCount_spec_witness :
    filteredCount ⟨3, 5, some [("Ante-Nicene", 2), ("Nicene", 3)]⟩
        ({"Ante-Nicene", "Nicene"} : Finset String) = 5 ∧
    filteredCount ⟨3, 5, some [("Ante-Nicene", 2), ("Nicene", 3)]⟩ (∅ : Finset String) = 0 ∧
    filteredCount ⟨3, 7, none⟩ ({"Other"} : Finset String) = 7 := by
  refine ⟨?_, ?_, ?_⟩
  · have h := filteredCount_spec.2.1 ⟨3, 5, some [("Ante-Nicene", 2), ("Nicene", 3)]⟩
      [("Ante-Nicene", 2), ("Nicene", 3)] ({"Ante-Nicene", "Nicene"} : Finset String)
      rfl (by decide)
    simpa using h
  · exact filteredCount_spec.2.2.1 ⟨3, 5, some [("Ante-Nicene", 2), ("Nicene", 3)]⟩
      [("Ante-Nicene", 2), ("Nicene", 3)] rfl
  · exact filteredCount_spec.2.2.2 ⟨3, 7, none⟩ ({"Other"} : Finset String) rfl

/-- Claim C6: `heatLevel(0, max) = 0` for every `max`, and 0 is returned only
for count 0; for positive counts the ratio `count/max` is bucketed into
`[0, 0.15) → 1`, `[0.15, 0.40) → 2`, `[0.40, 0.70) → 3` and `[0.70, 1] → 4`,
the exact boundary ratios falling into the higher bucket. -/
theorem heatLevel_spec :
    (∀ max : Nat, heatLevel 0 max = 0) ∧
    (∀ count max : Nat, heatLevel count max = 0 → count = 0) ∧
    (∀ count max : Nat, 0 < count → 0 < max →
        ((count : ℚ) / (max : ℚ) < 0.15 → heatLevel count max = 1) ∧
        (0.15 ≤ (count : ℚ) / (max : ℚ) → (count : ℚ) / (max : ℚ) < 0.40 →
            heatLevel count max = 2) ∧
        (0.40 ≤ (count : ℚ) / (max : ℚ) → (count : ℚ) / (max : ℚ) < 0.70 →
            heatLevel count max = 3) ∧
        (0.70 ≤ (count : ℚ) / (max : ℚ) → (count : ℚ) / (max : ℚ) ≤ 1 →
            heatLevel count max = 4)) := by
  refine ⟨?_, ?_, ?_⟩
  · intro max
    simp [heatLevel]
  · intro count max h
    unfold heatLevel at h
    split at h
    · assumption
    · dsimp only at h
      split_ifs at h <;> omega
  · intro count max hc hm
    have hcount : count ≠ 0 := by omega
    refine ⟨?_, ?_, ?_, ?_⟩ <;> intro ha <;> try intro hb
    all_goals unfold heatLevel
    all_goals rw [if_neg hcount]
    all_goals dsimp only
    all_goals split_ifs <;> first | rfl | (exfalso; linarith)

/-- Witness for C6 at concrete inputs, including the three exact boundary
ratios `3/20 = 0.15`, `2/5 = 0.40` and `7/10 = 0.70` rounding up. -/
theorem heatLevel_spec_witness :
    heatLevel 0 9 = 0 ∧ heatLevel 1 10 = 1 ∧ heatLevel 3 20 = 2 ∧
    heatLevel 2 5 = 3 ∧ heatLevel 7 10 = 4 := by
  refine ⟨heatLevel_spec.1 9, ?_, ?_, ?_, ?_⟩
  · exact (heatLevel_spec.2.2 1 10 (by norm_num) (by norm_num)).1 (by norm_num)
  · exact (heatLevel_spec.2.2 3 20 (by norm_num) (by norm_num)).2.1
      (by norm_num) (by norm_num)
  · exact (heatLevel_spec.2.2 2 5 (by norm_num) (by norm_num)).2.2.1
      (by norm_num) (by norm_num)
  · exact (heatLevel_spec.2.2 7 10 (by norm_num) (by norm_num)).2.2.2
      (by norm_num) (by norm_num)

/-- Claim C5: grouping a chapter's citations by verse drops exactly the
citations whose work id is unresolved or whose work's category (defaulting to
"Other") is outside the active set; each kept citation is assigned to the
group of its primary verse key — `null → "whole"`, a digit-leading locator
maps to its leading digit run, a non-digit-leading locator passes through —
and the rows are ordered with `"whole"` first, then the remaining keys in
ascending numeric order. -/
theorem groupByVerse_spec :
    (primaryVerseKey none = "whole") ∧
    (∀ (s : String) (d : Char) (rest : List Char),
        s.data = d :: rest → isDigitChar d = true →
        primaryVerseKey (some s) = String.mk (s.data.takeWhile isDigitChar)) ∧
    (∀ s : String, (s.data.takeWhile isDigitChar).isEmpty = true →
        primaryVerseKey (some s) = s) ∧
    (∀ (worksById : Nat → Option Work) (cats : Finset String)
        (refs : List ChapterRef) (r : ChapterRef),
        r ∈ keptRefs worksById cats refs ↔
          r ∈ refs ∧ ∃ w, worksById r.w = some w ∧ workCategory w ∈ cats) ∧
    (∀ (worksById : Nat → Option Work) (cats : Finset String)
        (refs : List ChapterRef) (r : ChapterRef),
        r ∈ keptRefs worksById cats refs →
        r ∈ groupOf worksById cats refs (primaryVerseKey r.v)) ∧
    (∀ (worksById : Nat → Option Work) (cats : Finset String)
        (refs : List ChapterRef) (key : String) (r : ChapterRef),
        r ∈ groupOf worksById cats refs key → primaryVerseKey r.v = key) ∧
    (∀ ks : List String, "whole" ∈ ks →
        ∃ tl, orderedKeys ks = "whole" :: tl ∧
          tl.Sorted verseKeyLE ∧ tl.Perm (ks.filter fun k => !(k == "whole"))) ∧
    (∀ ks : List String, "whole" ∉ ks →
        (orderedKeys ks).Sorted verseKeyLE ∧
          (orderedKeys ks).Perm (ks.filter fun k => !(k == "whole"))) := by
  refine ⟨rfl, ?_, ?_, ?_, ?_, ?_, ?_, ?_⟩
  · intro s d rest hs hd
    simp only [primaryVerseKey, hs, List.takeWhile_cons, hd]
    simp
  · intro s h
    simp only [primaryVerseKey, h]
    simp
  · intro worksById cats refs r
    rw [keptRefs, List.mem_filter]
    constructor
    · rintro ⟨hr, hp⟩
      refine ⟨hr, ?_⟩
      cases hw : worksById r.w with
      | none => rw [hw] at hp; simp at hp
      | some w =>
        rw [hw] at hp
        exact ⟨w, rfl, of_decide_eq_true hp⟩
    · rintro ⟨hr, w, hw, hcat⟩
      refine ⟨hr, ?_⟩
      rw [hw]
      exact decide_eq_true hcat
  · intro worksById cats refs r hr
    rw [groupOf, List.mem_filter]
    exact ⟨hr, by simp⟩
  · intro worksById cats refs key r hr
    rw [groupOf, List.mem_filter] at hr
    exact eq_of_beq hr.2
  · intro ks h
    refine ⟨List.insertionSort verseKeyLE (ks.filter fun k => !(k == "whole")), ?_, ?_, ?_⟩
    · rw [orderedKeys, if_pos h]
      rfl
    · exact List.sorted_insertionSort verseKeyLE _
    · exact List.perm_insertionSort verseKeyLE _
  · intro ks h
    have he : orderedKeys ks
        = List.insertionSort verseKeyLE (ks.filter fun k => !(k == "whole")) := by
      rw [orderedKeys, if_neg h, List.nil_append]
    rw [he]
    exact ⟨List.sorted_insertionSort verseKeyLE _, List.perm_insertionSort verseKeyLE _⟩

/-- Witness for C5 on concrete locators and key lists: `"13-17" → "13"`,
`"7" → "7"`, `"xyz" → "xyz"`, and `["whole","2","10","9"]` ordered as
`["whole","2","9","10"]` ("9" before "10"). -/
theorem groupByVerse_spec_witness :
    primaryVerseKey (some "13-17") = "13" ∧
    primaryVerseKey (some "7") = "7" ∧
    primaryVerseKey (some "xyz") = "xyz" ∧
    orderedKeys ["whole", "2", "10", "9"] = ["whole", "2", "9", "10"] ∧
    (∃ tl, orderedKeys ["whole", "2", "10", "9"] = "whole" :: tl ∧
        tl.Sorted verseKeyLE ∧ tl.Perm ["2", "10", "9"]) := by
  refine ⟨?_, ?_, ?_, by decide, ?_⟩
  · exact (groupByVerse_spec.2.1 "13-17" '1' ['3', '-', '1', '7'] rfl (by decide)).trans
      (by decide)
  · exact (groupByVerse_spec.2.1 "7" '7' [] rfl (by decide)).trans (by decide)
  · exact groupByVerse_spec.2.2.1 "xyz" (by decide)
  · obtain ⟨tl, h1, h2, h3⟩ :=
      groupByVerse_spec.2.2.2.2.2.2.1 ["whole", "2", "10", "9"] (by decide)
    have hf : (["whole", "2", "10", "9"].filter fun k => !(k == "whole"))
        = ["2", "10", "9"] := by decide
    rw [hf] at h3
    exact ⟨tl, h1, h2, h3⟩

/-- Claim C7: a work without a year never enters `worksWithYear` and hence no
era bucket, and — when its category is active — it is counted by the undated
list whose length the timeline reports, so it is not silently dropped. -/
theorem undated_works_spec :
    ∀ (works : List Work) (cats : Finset String) (w : Work),
      w ∈ works → workCategory w ∈ cats → w.year = none →
      (w ∉ datedWorks works cats) ∧
      (∀ (pairs : List (Work × List WorkRef)) (b : Int) (B : Nat),
          (∀ p ∈ pairs, p.1 ∈ datedWorks works cats) →
          ∀ p ∈ worksInBucket pairs b B, p.1 ≠ w) ∧
      w ∈ undatedWorks works cats ∧
      0 < undatedCount works cats := by
  intro works cats w hw hcat hyear
  have hnot : w ∉ datedWorks works cats := by
    intro hmem
    rw [datedWorks, List.mem_filter] at hmem
    have h2 := hmem.2
    rw [hyear] at h2
    simp at h2
  have hund : w ∈ undatedWorks works cats := by
    rw [undatedWorks, List.mem_filter]
    refine ⟨hw, ?_⟩
    rw [hyear]
    simp [hcat]
  refine ⟨hnot, ?_, hund, ?_⟩
  · intro pairs b B hpairs p hp heq
    have hmem := hpairs p (List.mem_of_mem_filter hp)
    rw [heq] at hmem
    exact hnot hmem
  · rw [undatedCount]
    exact List.length_pos.mpr (List.ne_nil_of_mem hund)

/-- Witness for C7: a concrete undated work of an active category is outside
the dated list (hence every bucket built from it) and inside the undated
count. -/
theorem undated_works_spec_witness :
    (⟨2, "Anon", "Fragments", none, none, none, none⟩ : Work) ∉
        datedWorks
          [⟨1, "Origen", "De Principiis", some 230, some "Other", none, none⟩,
           ⟨2, "Anon", "Fragments", none, none, none, none⟩]
          ({"Other"} : Finset String) ∧
    (∀ p ∈ worksInBucket
        [(⟨1, "Origen", "De Principiis", some 230, some "Other", none, none⟩, ([] : List WorkRef))]
        200 25,
        p.1 ≠ (⟨2, "Anon", "Fragments", none, none, none, none⟩ : Work)) ∧
    (⟨2, "Anon", "Fragments", none, none, none, none⟩ : Work) ∈
        undatedWorks
          [⟨1, "Origen", "De Principiis", some 230, some "Other", none, none⟩,
           ⟨2, "Anon", "Fragments", none, none, none, none⟩]
          ({"Other"} : Finset String) ∧
    0 < undatedCount
          [⟨1, "Origen", "De Principiis", some 230, some "Other", none, none⟩,
           ⟨2, "Anon", "Fragments", none, none, none, none⟩]
          ({"Other"} : Finset String) := by
  have h := undated_works_spec
    [⟨1, "Origen", "De Principiis", some 230, some "Other", none, none⟩,
     ⟨2, "Anon", "Fragments", none, none, none, none⟩]
    ({"Other"} : Finset String)
    ⟨2, "Anon", "Fragments", none, none, none, none⟩
    (by decide) (by decide) rfl
  exact ⟨h.1, h.2.1 _ 200 25 (by decide), h.2.2.1, h.2.2.2⟩

/-- Claim C9: the era bucket width is the stated function of the year span of
the dated, active-category works: 25 for spans below 200, 50 below 500, 100
below 1000, 200 below 2000, and 500 otherwise. -/
theorem bucket_width_spec :
    ∀ (works : List Work) (cats : Finset String),
      (spanOf works cats < 200 → vizBucketWidth works cats = 25) ∧
      (200 ≤ spanOf works cats → spanOf works cats < 500 →
          vizBucketWidth works cats = 50) ∧
      (500 ≤ spanOf works cats → spanOf works cats < 1000 →
          vizBucketWidth works cats = 100) ∧
      (1000 ≤ spanOf works cats → spanOf works cats < 2000 →
          vizBucketWidth works cats = 200) ∧
      (2000 ≤ spanOf works cats → vizBucketWidth works cats = 500) := by
  intro works cats
  unfold vizBucketWidth eraBucketWidth
  refine ⟨?_, ?_, ?_, ?_, ?_⟩ <;> intro h1 <;> try intro h2
  all_goals split_ifs <;> first | rfl | omega

/-- Witness for C9: dated works of 100 and 2150 spanning 2050 years give
500-year buckets, and works of 100 and 250 spanning 150 years give 25-year
buckets. -/
theorem bucket_width_spec_witness :
    vizBucketWidth
        [⟨1, "a", "t", some 100, some "Other", none, none⟩,
         ⟨2, "b", "u", some 250, some "Other", none, none⟩]
        ({"Other"} : Finset String) = 25 ∧
    vizBucketWidth
        [⟨1, "a", "t", some 100, some "Other", none, none⟩,
         ⟨2, "b", "u", some 2150, some "Other", none, none⟩]
        ({"Other"} : Finset String) = 500 := by
  constructor
  · exact (bucket_width_spec
      [⟨1, "a", "t", some 100, some "Other", none, none⟩,
       ⟨2, "b", "u", some 250, some "Other", none, none⟩]
      ({"Other"} : Finset String)).1 (by decide)
  · exact (bucket_width_spec
      [⟨1, "a", "t", some 100, some "Other", none, none⟩,
       ⟨2, "b", "u", some 2150, some "Other", none, none⟩]
      ({"Other"} : Finset String)).2.2.2.2 (by decide)

/-- Claim C10: era buckets are produced in ascending start-year order, and
within every bucket the sections are emitted following the fixed canonical
`BOOK_GROUP_ORDER` (a sublist of it), regardless of the order of the input
works — permuting the input does not change the emitted section sequence. -/
theorem bucket_order_spec :
    (∀ (minY maxY : Int) (B : Nat), 0 < B →
        (bucketStarts minY maxY B).Pairwise (· < ·)) ∧
    (∀ (ws : List (Work × List WorkRef)) (minY maxY : Int) (B : Nat), 0 < B →
        (nonemptyBucketStarts ws minY maxY B).Pairwise (· < ·)) ∧
    (∀ (ws : List (Work × List WorkRef)) (b : Int) (B : Nat),
        (emittedSections ws b B).Sublist BOOK_GROUP_ORDER) ∧
    (∀ (ws ws' : List (Work × List WorkRef)) (b : Int) (B : Nat),
        ws.Perm ws' → emittedSections ws b B = emittedSections ws' b B) := by
  have hstarts : ∀ (minY maxY : Int) (B : Nat), 0 < B →
      (bucketStarts minY maxY B).Pairwise (· < ·) := by
    intro minY maxY B hB
    have key : ∀ (first : Int) (K : Nat),
        ((List.range K).map fun i : Nat => first + (B : Int) * (i : Int)).Pairwise
          (· < ·) := by
      intro first K
      have H : ∀ a b : Nat, a < b →
          (fun i : Nat => first + (B : Int) * (i : Int)) a
            < (fun i : Nat => first + (B : Int) * (i : Int)) b := by
        intro a b hab
        have hb' : (0 : Int) < (B : Int) := by exact_mod_cast hB
        have hab' : (a : Int) < (b : Int) := by exact_mod_cast hab
        have hmul : (B : Int) * (a : Int) < (B : Int) * (b : Int) :=
          mul_lt_mul_of_pos_left hab' hb'
        simpa using hmul
      exact List.Pairwise.map _ H (List.pairwise_lt_range K)
    unfold bucketStarts
    exact key ((minY.fdiv B) * B) ((maxY - (minY.fdiv B) * B).toNat / B + 1)
  refine ⟨hstarts, ?_, ?_, ?_⟩
  · intro ws minY maxY B hB
    exact List.Pairwise.sublist (List.filter_sublist _) (hstarts minY maxY B hB)
  · intro ws b B
    exact (List.filter_sublist _).trans (List.filter_sublist _)
  · intro ws ws' b B hperm
    have hag : activeGroups ws = activeGroups ws' := by
      unfold activeGroups
      apply List.filter_congr
      intro g _
      rw [Bool.eq_iff_iff, List.any_eq_true, List.any_eq_true]
      constructor
      · rintro ⟨x, hx, hpx⟩
        exact ⟨x, hperm.mem_iff.mp hx, hpx⟩
      · rintro ⟨x, hx, hpx⟩
        exact ⟨x, hperm.mem_iff.mpr hx, hpx⟩
    have htot : ∀ g, bucketGroupTotal ws b B g = bucketGroupTotal ws' b B g := by
      intro g
      unfold bucketGroupTotal worksInBucket
      exact ((hperm.filter _).map _).sum_eq
    unfold emittedSections
    rw [hag]
    apply List.filter_congr
    intro g _
    rw [htot g]

/-- Witness for C10: the 500-year buckets over years 100–1900 are strictly
ascending `[0, 500, 1000, 1500]`, and for a concrete pair of works listed
with the New-Testament work first, the emitted sections still come out in
canonical order (`Pentateuch` before `Acts & Epistles`) and are unchanged
under permuting the input. -/
theorem bucket_order_spec_witness :
    (bucketStarts 100 1900 500).Pairwise (· < ·) ∧
    bucketStarts 100 1900 500 = [0, 500, 1000, 1500] ∧
    (emittedSections
        [(⟨1, "a", "t", some 150, some "Other", none, none⟩,
          [⟨"Romans", "romans", 8, some "13", 0⟩]),
         (⟨2, "b", "u", some 160, some "Other", none, none⟩,
          [⟨"Genesis", "genesis", 1, none, 1⟩])]
        0 500).Sublist BOOK_GROUP_ORDER ∧
    emittedSections
        [(⟨1, "a", "t", some 150, some "Other", none, none⟩,
          [⟨"Romans", "romans", 8, some "13", 0⟩]),
         (⟨2, "b", "u", some 160, some "Other", none, none⟩,
          [⟨"Genesis", "genesis", 1, none, 1⟩])]
        0 500 = ["Pentateuch", "Acts & Epistles"] ∧
    emittedSections
        [(⟨1, "a", "t", some 150, some "Other", none, none⟩,
          [⟨"Romans", "romans", 8, some "13", 0⟩]),
         (⟨2, "b", "u", some 160, some "Other", none, none⟩,
          [⟨"Genesis", "genesis", 1, none, 1⟩])]
        0 500
      = emittedSections
        [(⟨2, "b", "u", some 160, some "Other", none, none⟩,
          [⟨"Genesis", "genesis", 1, none, 1⟩]),
         (⟨1, "a", "t", some 150, some "Other", none, none⟩,
          [⟨"Romans", "romans", 8, some "13", 0⟩])]
        0 500 := by
  refine ⟨bucket_order_spec.1 100 1900 500 (by decide), by decide,
    bucket_order_spec.2.2.1 _ 0 500, by decide,
    bucket_order_spec.2.2.2 _ _ 0 500 (by decide)⟩

/-- Claim C2: a failed fetch for one work id stays scoped to that key — the
shared per-work cache keeps every other key's entry unchanged, fetching any
other id afterwards yields exactly what it would have yielded before the
failure, and the work view renders the localized "could not load" state for
the failing key instead of aborting. -/
theorem fetch_failure_spec :
    ∀ (fetchResult : Nat → Except String WorkData) (cache : RefsCache)
      (k : Nat) (msg : String),
      fetchResult k = Except.error msg →
      (∀ k', k' ≠ k →
          cacheLookup (fetchWorkRefs fetchResult cache k).1 k' = cacheLookup cache k') ∧
      (∀ k', k' ≠ k →
          (fetchWorkRefs fetchResult (fetchWorkRefs fetchResult cache k).1 k').2
            = (fetchWorkRefs fetchResult cache k').2) ∧
      loadWork fetchResult k = WorkView.couldNotLoad := by
  intro f cache k msg hf
  have hpreserve : ∀ k', k' ≠ k →
      cacheLookup (fetchWorkRefs f cache k).1 k' = cacheLookup cache k' := by
    intro k' hk
    unfold fetchWorkRefs
    cases hc : cacheLookup cache k with
    | some refs => rfl
    | none =>
      rw [hf]
      unfold cacheLookup
      rw [List.find?_cons_of_neg]
      simpa using Ne.symm hk
  have hval : ∀ (c₁ c₂ : RefsCache) (k' : Nat),
      cacheLookup c₁ k' = cacheLookup c₂ k' →
      (fetchWorkRefs f c₁ k').2 = (fetchWorkRefs f c₂ k').2 := by
    intro c₁ c₂ k' h
    unfold fetchWorkRefs
    rw [h]
    cases cacheLookup c₂ k' with
    | some refs => rfl
    | none => cases f k' <;> rfl
  refine ⟨hpreserve, ?_, ?_⟩
  · intro k' hk
    exact hval _ _ k' (hpreserve k' hk)
  · unfold loadWork
    rw [hf]

/-- Witness for C2: with a fetch that fails on id 1, the failure leaves other
cache keys untouched, a later fetch of id 2 is unaffected, and the work view
for id 1 is the localized "could not load" state. -/
theorem fetch_failure_spec_witness :
    (cacheLookup
        (fetchWorkRefs
          (fun i => if i = 1 then Except.error "boom"
                    else Except.ok ⟨"T", "A", none, none, []⟩)
          [] 1).1 2 = cacheLookup [] 2) ∧
    ((fetchWorkRefs
        (fun i => if i = 1 then Except.error "boom"
                  else Except.ok ⟨"T", "A", none, none, []⟩)
        (fetchWorkRefs
          (fun i => if i = 1 then Except.error "boom"
                    else Except.ok ⟨"T", "A", none, none, []⟩)
          [] 1).1 2).2
      = (fetchWorkRefs
          (fun i => if i = 1 then Except.error "boom"
                    else Except.ok ⟨"T", "A", none, none, []⟩)
          [] 2).2) ∧
    loadWork
        (fun i => if i = 1 then Except.error "boom"
                  else Except.ok ⟨"T", "A", none, none, []⟩)
        1 = WorkView.couldNotLoad := by
  have h := fetch_failure_spec
    (fun i => if i = 1 then Except.error "boom"
              else Except.ok ⟨"T", "A", none, none, []⟩)
    [] 1 "boom" rfl
  exact ⟨h.1 2 (by decide), h.2.1 2 (by decide), h.2.2⟩

/-- Claim C8: each `renderVizTab` recomputation carries a strictly larger
generation number; the counter never decreases across any event
interleaving; an async completion whose generation differs from the current
one leaves the state untouched; hence if generation `v₁` completes at any
point after a later generation `v₂ > v₁` has started, the displayed output
is exactly what it was without `v₁`'s completion — a stale result never
overwrites a newer one. -/
theorem stale_suppression_spec :
    (∀ st : VizState,
        (renderVizTabStep st).2 = st.vizVersion + 1 ∧
        (renderVizTabStep st).1.vizVersion = st.vizVersion + 1) ∧
    (∀ (st : VizState) (evs : List VizEvent),
        st.vizVersion ≤ (vizRun st evs).vizVersion) ∧
    (∀ (st : VizState) (v : Nat), v ≠ st.vizVersion → asyncComplete st v = st) ∧
    (∀ (st : VizState) (evs : List VizEvent) (v₁ v₂ : Nat),
        v₁ < v₂ → v₂ ≤ st.vizVersion →
        vizRun st (evs ++ [VizEvent.complete v₁]) = vizRun st evs) := by
  have hstep : ∀ (st : VizState) (e : VizEvent),
      st.vizVersion ≤ (vizStep st e).vizVersion := by
    intro st e
    cases e with
    | render => exact Nat.le_succ _
    | complete v =>
      show st.vizVersion ≤ (asyncComplete st v).vizVersion
      unfold asyncComplete
      split <;> exact le_refl _
  have hmono : ∀ (evs : List VizEvent) (st : VizState),
      st.vizVersion ≤ (vizRun st evs).vizVersion := by
    intro evs
    induction evs with
    | nil => intro st; exact le_refl _
    | cons e evs ih =>
      intro st
      exact le_trans (hstep st e) (ih (vizStep st e))
  have hstale : ∀ (st : VizState) (v : Nat), v ≠ st.vizVersion →
      asyncComplete st v = st := by
    intro st v h
    unfold asyncComplete
    rw [if_pos (Ne.symm h)]
  refine ⟨fun st => ⟨rfl, rfl⟩, fun st evs => hmono evs st, hstale, ?_⟩
  intro st evs v₁ v₂ h12 h2
  show (evs ++ [VizEvent.complete v₁]).foldl vizStep st = vizRun st evs
  rw [List.foldl_append]
  show vizStep (vizRun st evs) (VizEvent.complete v₁) = vizRun st evs
  have hv : v₁ ≠ (vizRun st evs).vizVersion := by
    have := hmono evs st
    omega
  exact hstale (vizRun st evs) v₁ hv

/-- Witness for C8: with the counter at generation 2 (generation 2 already
started), a late completion of generation 1 leaves the state unchanged —
including when generation 2's output is already on screen. -/
theorem stale_suppression_spec_witness :
    vizRun ⟨2, none⟩ [VizEvent.complete 1] = vizRun ⟨2, none⟩ [] ∧
    asyncComplete ⟨2, some 2⟩ 1 = ⟨2, some 2⟩ ∧
    (renderVizTabStep ⟨1, some 1⟩).2 = 2 := by
  refine ⟨?_, ?_, ?_⟩
  · exact stale_suppression_spec.2.2.2 ⟨2, none⟩ [] 1 2 (by omega) (by decide)
  · exact stale_suppression_spec.2.2.1 ⟨2, some 2⟩ 1 (by decide)
  · exact (stale_suppression_spec.1 ⟨1, some 1⟩).1

end PatristicsViewer
